import Mathlib

/-!
Shallow embedding of the annotation-session core of `question_cli`
(`src/main.rs`): the `Question` data model, the `App` session state, the
key-event transition function, navigation, progress accounting, and the
JSON persistence layer.  Terminal rendering (`App::ui`) and argument
parsing are presentation concerns outside the embedded core.

Effects are made explicit:
* the filesystem write performed by `save_json` is modelled by a boolean
  oracle `writeOk` (whether `fs::write` succeeds) and, on success, the
  serialized JSON document that was durably written;
* `Utc::now()` is modelled by a `now : String` parameter;
* Rust's `&mut self -> Result<()>` methods become functions returning the
  mutated state together with an `Except String Unit` outcome, so that
  mutations performed before an early `?` return (such as `self.exit = true`
  in `App::exit`) are kept, exactly as in the source.
-/

namespace QuestionCli

/-- `struct Question` from `src/main.rs` (serde field order: `question`,
`options`, `answer`, `is_higher_order`, `human_answer`; the last two are
`Option` fields, "not always in .json file"). -/
structure Question where
  question : String
  options : List String
  answer : String
  is_higher_order : Option Bool
  human_answer : Option String
deriving DecidableEq, Repr

/-- `type Questions = Vec<Question>`. -/
abbrev Questions := List Question

/-- `enum Mode { Classify, Answer }`. -/
inductive Mode where
  | Classify
  | Answer
deriving DecidableEq, Repr

/-- JSON documents, as produced and consumed by `serde_json`.  The textual
layer (`to_string_pretty` / `from_str`) is serde_json's faithful rendering
and parsing of exactly these documents, so serialization is embedded at the
document level. -/
inductive Json where
  | null
  | bool (b : Bool)
  | str (s : String)
  | arr (xs : List Json)
  | obj (fields : List (String × Json))

/-- The serde-derived `Serialize` for `Question`: an object with the five
fields in declaration order; an `Option` field that is `None` serializes to
`null`. -/
def Question.toJson (q : Question) : Json :=
  Json.obj
    [ ("question", Json.str q.question)
    , ("options", Json.arr (q.options.map Json.str))
    , ("answer", Json.str q.answer)
    , ("is_higher_order",
        match q.is_higher_order with
        | none => Json.null
        | some b => Json.bool b)
    , ("human_answer",
        match q.human_answer with
        | none => Json.null
        | some s => Json.str s) ]

/-- Serialization of the whole `Questions` vector: a JSON array. -/
def questionsToJson (qs : Questions) : Json :=
  Json.arr (qs.map Question.toJson)

/-- First binding of a key in a serde map (serde rejects duplicate keys, so
on documents it produces itself the lookup is unambiguous). -/
def lookupField (fields : List (String × Json)) (key : String) : Option Json :=
  match fields with
  | [] => none
  | (k, v) :: rest => if k = key then some v else lookupField rest key

/-- Deserializing a mandatory `String` field. -/
def Json.asStr : Json → Option String
  | Json.str s => some s
  | _ => none

/-- Deserializing a `Vec<String>` element list. -/
def strListOfJson : List Json → Option (List String)
  | [] => some []
  | j :: rest =>
    match j.asStr, strListOfJson rest with
    | some s, some l => some (s :: l)
    | _, _ => none

/-- Deserializing a `Vec<String>` field. -/
def Json.asStrList : Json → Option (List String)
  | Json.arr xs => strListOfJson xs
  | _ => none

/-- serde's treatment of an `Option<bool>` field: a missing field and an
explicit `null` both give `None`; a boolean gives `Some`; anything else is a
deserialization error. -/
def optBoolOfField : Option Json → Option (Option Bool)
  | none => some none
  | some Json.null => some none
  | some (Json.bool b) => some (some b)
  | some _ => none

/-- serde's treatment of an `Option<String>` field. -/
def optStrOfField : Option Json → Option (Option String)
  | none => some none
  | some Json.null => some none
  | some (Json.str s) => some (some s)
  | some _ => none

/-- The serde-derived `Deserialize` for `Question` on an object document. -/
def Question.fromJson (j : Json) : Option Question :=
  match j with
  | Json.obj fields =>
    match (lookupField fields "question").bind Json.asStr,
          (lookupField fields "options").bind Json.asStrList,
          (lookupField fields "answer").bind Json.asStr,
          optBoolOfField (lookupField fields "is_higher_order"),
          optStrOfField (lookupField fields "human_answer") with
    | some question, some options, some answer, some iho, some ha =>
      some ⟨question, options, answer, iho, ha⟩
    | _, _, _, _, _ => none
  | _ => none

/-- Element-wise deserialization of a question array. -/
def questionListFromJson : List Json → Option Questions
  | [] => some []
  | j :: rest =>
    match Question.fromJson j, questionListFromJson rest with
    | some q, some qs => some (q :: qs)
    | _, _ => none

/-- Deserializing the whole file: `serde_json::from_str::<Questions>`. -/
def questionsFromJson : Json → Option Questions
  | Json.arr xs => questionListFromJson xs
  | _ => none

/-- The key codes the program distinguishes; `Other` stands for every other
`KeyCode` (arrows other than Left/Right, Enter, Esc, ...). -/
inductive KeyCode where
  | Char (c : Char)
  | Left
  | Right
  | Other
deriving DecidableEq, Repr

/-- A terminal event: a key press (the only kind `handle_events` acts on) or
anything else (release/repeat/resize/mouse). -/
inductive Event where
  | KeyPress (code : KeyCode)
  | NonPress
deriving DecidableEq, Repr

/-- `struct App`: the session state (`json_path` is a launch constant with no
bearing on the transition rules and is absorbed into the write oracle). -/
structure App where
  questions : Questions
  question_index : Nat
  mode : Mode
  message : String
  exit : Bool
  num_answered : Nat
deriving DecidableEq, Repr

/-- Outcome of one fallible step on the session: the state after all
mutations the source performed (also before an early `?` return), the
`Result` value, and the JSON documents durably written during the step. -/
structure StepResult where
  app : App
  res : Except String Unit
  written : List Json

/-- `save_json`: serialize the full question vector (derived serde
serialization cannot fail on this data model) and write it; the write
succeeds or fails according to the external filesystem, modelled by
`writeOk`.  On success the written document is returned. -/
def save_json (writeOk : Bool) (questions : Questions) : Except String Json :=
  if writeOk then Except.ok (questionsToJson questions)
  else Except.error "Failed to write JSON to file."

/-- `get_answer_from_alphanum_option`: map the shortcut symbol to an index
(unknown symbols map to 100000) and return the option text there when in
range. -/
def get_answer_from_alphanum_option (option : String) (question : Question) : Option String :=
  let index : Nat :=
    if option = "1" then 0
    else if option = "2" then 1
    else if option = "3" then 2
    else if option = "4" then 3
    else if option = "5" then 4
    else if option = "6" then 5
    else 100000
  if h : index < question.options.length then
    some (question.options.get ⟨index, h⟩)
  else none

/-- `get_num_answered`: load-time scan counting questions already annotated
for the active mode. -/
def get_num_answered (mode : Mode) (questions : Questions) : Nat :=
  match mode with
  | Mode.Classify => (questions.filter (fun question => question.is_higher_order.isSome)).length
  | Mode.Answer => (questions.filter (fun question => question.human_answer.isSome)).length

/-- The placeholder used to make `self.questions[self.question_index]` total
in the embedding; all reachable states index in bounds (`main` starts at
index 0 on a non-empty vector and every transition preserves the bound), so
the default is never consulted on the program's executions. -/
def defaultQuestion : Question := ⟨"", [], "", none, none⟩

/-- `self.questions[self.question_index]`, the current question. -/
def currentQ (app : App) : Question :=
  app.questions.getD app.question_index defaultQuestion

/-- `App::decrement_index`: `checked_sub(1)`, wrapping to `len - 1` from 0. -/
def App.decrement_index (app : App) : App :=
  { app with question_index :=
      match app.question_index with
      | 0 => app.questions.length - 1
      | n + 1 => n }

/-- `App::increment_index`: `(i + 1) % len`. -/
def App.increment_index (app : App) : App :=
  { app with question_index := (app.question_index + 1) % app.questions.length }

/-- `App::increment_num_answered`. -/
def App.increment_num_answered (app : App) : App :=
  { app with num_answered := app.num_answered + 1 }

/-- `App::exit`: set the exit flag, then attempt the final save; a failure is
wrapped (`wrap_err("save_json failed")`) and propagated, but the flag is
already set. -/
def App.exit_cmd (app : App) (writeOk : Bool) : StepResult :=
  let app := { app with exit := true }
  match save_json writeOk app.questions with
  | Except.ok doc => ⟨app, Except.ok (), [doc]⟩
  | Except.error e => ⟨app, Except.error ("save_json failed: " ++ e), []⟩

/-- `App::save`: capture the time, save, and only on success store the
confirmation message; on failure the error propagates before `self.message`
is assigned. -/
def App.save (app : App) (writeOk : Bool) (now : String) : StepResult :=
  match save_json writeOk app.questions with
  | Except.ok doc =>
    ⟨{ app with message := "Progress saved at " ++ now }, Except.ok (), [doc]⟩
  | Except.error e => ⟨app, Except.error ("save_json failed: " ++ e), []⟩

/-- The `KeyCode::Char('t') | Char('f')` arms of `handle_key_event` in
Classify mode: increment the progress count only if the current question has
no prior classification, then overwrite `is_higher_order`. -/
def App.classify_key (app : App) (value : Bool) : App :=
  let app :=
    if (currentQ app).is_higher_order = none then app.increment_num_answered else app
  let q : Question := { currentQ app with is_higher_order := some value }
  { app with questions := app.questions.set app.question_index q }

/-- The `'1' ..= '6'` arm of `handle_key_event` in Answer mode: resolve the
shortcut against the current question's options; on a hit, increment the
progress count only if there is no prior answer, then overwrite
`human_answer` with the resolved option text; on a miss, do nothing. -/
def App.answer_key (app : App) (value : Char) : App :=
  match get_answer_from_alphanum_option value.toString (currentQ app) with
  | some human_answer =>
    let app :=
      if (currentQ app).human_answer = none then app.increment_num_answered else app
    let q : Question := { currentQ app with human_answer := some human_answer }
    { app with questions := app.questions.set app.question_index q }
  | none => app

/-- The "common controls" match of `App::handle_key_event` (`q`, `s`, Left,
Right; every other key falls through unchanged). -/
def App.common_controls (app : App) (writeOk : Bool) (now : String) (code : KeyCode) : StepResult :=
  match code with
  | KeyCode.Char c =>
    if c = 'q' then app.exit_cmd writeOk
    else if c = 's' then app.save writeOk now
    else ⟨app, Except.ok (), []⟩
  | KeyCode.Left => ⟨app.decrement_index, Except.ok (), []⟩
  | KeyCode.Right => ⟨app.increment_index, Except.ok (), []⟩
  | KeyCode.Other => ⟨app, Except.ok (), []⟩

/-- The two "mode specific controls" blocks of `App::handle_key_event`: the
Classify-mode match on `t`/`f`, then the Answer-mode match on `'1' ..= '6'`
(the mode is fixed, so at most one block acts). -/
def App.mode_controls (app : App) (code : KeyCode) : App :=
  let app :=
    if app.mode = Mode.Classify then
      match code with
      | KeyCode.Char c =>
        if c = 't' then app.classify_key true
        else if c = 'f' then app.classify_key false
        else app
      | _ => app
    else app
  if app.mode = Mode.Answer then
    match code with
    | KeyCode.Char c =>
      if c = '1' ∨ c = '2' ∨ c = '3' ∨ c = '4' ∨ c = '5' ∨ c = '6' then
        app.answer_key c
      else app
    | _ => app
  else app

/-- `App::handle_key_event`: common controls first (an error there — only a
failed save under `q`/`s` — returns early through `?`), then the
mode-specific controls on the updated state. -/
def App.handle_key_event (app : App) (writeOk : Bool) (now : String) (code : KeyCode) : StepResult :=
  let r := app.common_controls writeOk now code
  match r.res with
  | Except.error e => ⟨r.app, Except.error e, r.written⟩
  | Except.ok _ => ⟨r.app.mode_controls code, Except.ok (), r.written⟩

/-- `App::handle_events`: only key-press events reach `handle_key_event`;
everything else is `Ok(())` with no state change. -/
def App.handle_events (app : App) (writeOk : Bool) (now : String) (ev : Event) : StepResult :=
  match ev with
  | Event.KeyPress code => app.handle_key_event writeOk now code
  | Event.NonPress => ⟨app, Except.ok (), []⟩

/-- `App::run`: `while !self.exit { draw; handle_events()? }`.  Each pending
input carries the event, the filesystem oracle for any write it triggers,
and the clock reading.  An error from `handle_events` propagates out through
`?`, ending the loop; exhausting the input list corresponds to the loop
blocking for further input. -/
def App.run (app : App) : List (Event × Bool × String) → StepResult
  | [] => ⟨app, Except.ok (), []⟩
  | (ev, writeOk, now) :: rest =>
    if app.exit then ⟨app, Except.ok (), []⟩
    else
      match (app.handle_events writeOk now ev).res with
      | Except.error e => ⟨(app.handle_events writeOk now ev).app, Except.error e, (app.handle_events writeOk now ev).written⟩
      | Except.ok _ =>
        let r := app.handle_events writeOk now ev
        let r2 := r.app.run rest
        ⟨r2.app, r2.res, r.written ++ r2.written⟩

/-! ### List helper lemmas -/

theorem getD_set_self {α : Type _} (l : List α) (i : Nat) (x d : α) (h : i < l.length) :
    (l.set i x).getD i d = x := by
  induction l generalizing i with
  | nil => simp at h
  | cons a l ih =>
    cases i with
    | zero => rfl
    | succ n => exact ih n (by simpa using h)

theorem getD_set_ne {α : Type _} (l : List α) (j i : Nat) (x d : α) (h : i ≠ j) :
    (l.set j x).getD i d = l.getD i d := by
  induction l generalizing i j with
  | nil => cases j <;> rfl
  | cons a l ih =>
    cases j with
    | zero =>
      cases i with
      | zero => exact absurd rfl h
      | succ m => rfl
    | succ n =>
      cases i with
      | zero => rfl
      | succ m => exact ih n m (fun hc => h (by rw [hc]))

theorem getD_mem {α : Type _} (l : List α) (i : Nat) (d : α) (h : i < l.length) :
    l.getD i d ∈ l := by
  induction l generalizing i with
  | nil => simp at h
  | cons a l ih =>
    cases i with
    | zero => exact List.mem_cons_self a l
    | succ n => exact List.mem_cons_of_mem a (ih n (by simpa using h))

theorem mem_of_mem_set {α : Type _} {l : List α} {i : Nat} {x y : α}
    (h : y ∈ l.set i x) : y ∈ l ∨ y = x := by
  induction l generalizing i with
  | nil => simp at h
  | cons a l ih =>
    cases i with
    | zero =>
      rcases List.mem_cons.mp h with h' | h'
      · exact Or.inr h'
      · exact Or.inl (List.mem_cons_of_mem a h')
    | succ n =>
      rcases List.mem_cons.mp h with h' | h'
      · exact Or.inl (h' ▸ List.mem_cons_self a l)
      · rcases ih h' with h'' | h''
        · exact Or.inl (List.mem_cons_of_mem a h'')
        · exact Or.inr h''

/-! ### Characterization lemmas for the transition pieces -/

theorem dite_get_mem {q : Question} {a : String} (n : Nat)
    (h : (if h : n < q.options.length then some (q.options.get ⟨n, h⟩) else none) = some a) :
    a ∈ q.options := by
  split at h
  · injection h with h2
    exact h2 ▸ List.get_mem ..
  · exact absurd h (by simp)

theorem get_answer_mem {s : String} {q : Question} {a : String}
    (h : get_answer_from_alphanum_option s q = some a) : a ∈ q.options :=
  dite_get_mem _ h

theorem save_json_true (qs : Questions) :
    save_json true qs = Except.ok (questionsToJson qs) := rfl

theorem save_json_false (qs : Questions) :
    save_json false qs = Except.error "Failed to write JSON to file." := rfl

theorem save_true (app : App) (now : String) :
    app.save true now =
      ⟨{ app with message := "Progress saved at " ++ now }, Except.ok (),
        [questionsToJson app.questions]⟩ := rfl

theorem save_false (app : App) (now : String) :
    app.save false now =
      ⟨app, Except.error "save_json failed: Failed to write JSON to file.", []⟩ := rfl

theorem exit_cmd_true (app : App) :
    app.exit_cmd true =
      ⟨{ app with exit := true }, Except.ok (), [questionsToJson app.questions]⟩ := rfl

theorem exit_cmd_false (app : App) :
    app.exit_cmd false =
      ⟨{ app with exit := true }, Except.error "save_json failed: Failed to write JSON to file.",
        []⟩ := rfl

theorem classify_key_questions (app : App) (b : Bool) :
    (app.classify_key b).questions =
      app.questions.set app.question_index
        ({ currentQ app with is_higher_order := some b }) := by
  unfold App.classify_key
  split <;> rfl

theorem classify_key_index (app : App) (b : Bool) :
    (app.classify_key b).question_index = app.question_index := by
  unfold App.classify_key
  split <;> rfl

theorem classify_key_mode (app : App) (b : Bool) :
    (app.classify_key b).mode = app.mode := by
  unfold App.classify_key
  split <;> rfl

theorem classify_key_num (app : App) (b : Bool) :
    (app.classify_key b).num_answered =
      if (currentQ app).is_higher_order = none then app.num_answered + 1
      else app.num_answered := by
  unfold App.classify_key
  split <;> simp_all [App.increment_num_answered]

theorem answer_key_of_none {app : App} {c : Char}
    (h : get_answer_from_alphanum_option c.toString (currentQ app) = none) :
    app.answer_key c = app := by
  unfold App.answer_key
  rw [h]

theorem answer_key_of_some {app : App} {c : Char} {a : String}
    (h : get_answer_from_alphanum_option c.toString (currentQ app) = some a) :
    app.answer_key c =
      { app with
          questions :=
            app.questions.set app.question_index
              ({ currentQ app with human_answer := some a })
          num_answered :=
            if (currentQ app).human_answer = none then app.num_answered + 1
            else app.num_answered } := by
  unfold App.answer_key
  rw [h]
  by_cases hh : (currentQ app).human_answer = none
  · rw [if_pos hh, if_pos hh]
    rfl
  · rw [if_neg hh, if_neg hh]

theorem answer_key_index (app : App) (c : Char) :
    (app.answer_key c).question_index = app.question_index := by
  cases h : get_answer_from_alphanum_option c.toString (currentQ app) with
  | none => rw [answer_key_of_none h]
  | some a => rw [answer_key_of_some h]

theorem answer_key_mode (app : App) (c : Char) :
    (app.answer_key c).mode = app.mode := by
  cases h : get_answer_from_alphanum_option c.toString (currentQ app) with
  | none => rw [answer_key_of_none h]
  | some a => rw [answer_key_of_some h]

theorem answer_key_num_ge (app : App) (c : Char) :
    app.num_answered ≤ (app.answer_key c).num_answered := by
  cases h : get_answer_from_alphanum_option c.toString (currentQ app) with
  | none => rw [answer_key_of_none h]
  | some a =>
    rw [answer_key_of_some h]
    by_cases hh : (currentQ app).human_answer = none <;> simp [hh]

theorem classify_key_num_ge (app : App) (b : Bool) :
    app.num_answered ≤ (app.classify_key b).num_answered := by
  rw [classify_key_num]
  split <;> simp

/-- The character set the Answer-mode match (`'1' ..= '6'`) fires on. -/
def shortcutChar (c : Char) : Prop :=
  c = '1' ∨ c = '2' ∨ c = '3' ∨ c = '4' ∨ c = '5' ∨ c = '6'

instance (c : Char) : Decidable (shortcutChar c) := by
  unfold shortcutChar
  infer_instance

theorem mode_controls_left (app : App) : app.mode_controls KeyCode.Left = app := by
  unfold App.mode_controls
  simp

theorem mode_controls_right (app : App) : app.mode_controls KeyCode.Right = app := by
  unfold App.mode_controls
  simp

theorem mode_controls_other (app : App) : app.mode_controls KeyCode.Other = app := by
  unfold App.mode_controls
  simp

theorem mode_controls_cold_char (app : App) (c : Char) (ht : c ≠ 't') (hf : c ≠ 'f')
    (hd : ¬ shortcutChar c) :
    app.mode_controls (KeyCode.Char c) = app := by
  unfold App.mode_controls
  unfold shortcutChar at hd
  simp [ht, hf, hd]

theorem mode_controls_t (app : App) (hm : app.mode = Mode.Classify) :
    app.mode_controls (KeyCode.Char 't') = app.classify_key true := by
  unfold App.mode_controls
  simp [hm, classify_key_mode]

theorem mode_controls_f (app : App) (hm : app.mode = Mode.Classify) :
    app.mode_controls (KeyCode.Char 'f') = app.classify_key false := by
  unfold App.mode_controls
  simp [hm, classify_key_mode]

theorem mode_controls_digit (app : App) (c : Char) (hm : app.mode = Mode.Answer)
    (hd : shortcutChar c) :
    app.mode_controls (KeyCode.Char c) = app.answer_key c := by
  unfold App.mode_controls
  unfold shortcutChar at hd
  simp [hm, hd]

theorem mode_controls_classify_digit (app : App) (c : Char) (hm : app.mode = Mode.Classify)
    (ht : c ≠ 't') (hf : c ≠ 'f') :
    app.mode_controls (KeyCode.Char c) = app := by
  unfold App.mode_controls
  simp [hm, ht, hf]

theorem mode_controls_answer_nondigit (app : App) (c : Char) (hm : app.mode = Mode.Answer)
    (hd : ¬ shortcutChar c) :
    app.mode_controls (KeyCode.Char c) = app := by
  unfold App.mode_controls
  unfold shortcutChar at hd
  simp [hm, hd]

theorem common_controls_q (app : App) (w : Bool) (now : String) :
    app.common_controls w now (KeyCode.Char 'q') = app.exit_cmd w := by
  unfold App.common_controls
  simp

theorem common_controls_s (app : App) (w : Bool) (now : String) :
    app.common_controls w now (KeyCode.Char 's') = app.save w now := by
  unfold App.common_controls
  simp

theorem common_controls_char (app : App) (w : Bool) (now : String) (c : Char)
    (hq : c ≠ 'q') (hs : c ≠ 's') :
    app.common_controls w now (KeyCode.Char c) = ⟨app, Except.ok (), []⟩ := by
  unfold App.common_controls
  simp [hq, hs]

theorem handle_key_event_plain_char (app : App) (w : Bool) (now : String) (c : Char)
    (hq : c ≠ 'q') (hs : c ≠ 's') :
    app.handle_key_event w now (KeyCode.Char c) =
      ⟨app.mode_controls (KeyCode.Char c), Except.ok (), []⟩ := by
  unfold App.handle_key_event
  rw [common_controls_char app w now c hq hs]

theorem handle_key_event_left (app : App) (w : Bool) (now : String) :
    app.handle_key_event w now KeyCode.Left =
      ⟨app.decrement_index, Except.ok (), []⟩ := by
  unfold App.handle_key_event App.common_controls
  simp [mode_controls_left]

theorem handle_key_event_right (app : App) (w : Bool) (now : String) :
    app.handle_key_event w now KeyCode.Right =
      ⟨app.increment_index, Except.ok (), []⟩ := by
  unfold App.handle_key_event App.common_controls
  simp [mode_controls_right]

theorem handle_key_event_other (app : App) (w : Bool) (now : String) :
    app.handle_key_event w now KeyCode.Other =
      ⟨app, Except.ok (), []⟩ := by
  unfold App.handle_key_event App.common_controls
  simp [mode_controls_other]

theorem handle_key_event_q (app : App) (w : Bool) (now : String) :
    app.handle_key_event w now (KeyCode.Char 'q') =
      (if w then
        ⟨({ app with exit := true }).mode_controls (KeyCode.Char 'q'), Except.ok (),
          [questionsToJson app.questions]⟩
      else
        ⟨{ app with exit := true },
          Except.error "save_json failed: Failed to write JSON to file.", []⟩) := by
  unfold App.handle_key_event
  rw [common_controls_q]
  cases w
  · rw [exit_cmd_false]
    rfl
  · rw [exit_cmd_true]
    rfl

theorem handle_key_event_s (app : App) (w : Bool) (now : String) :
    app.handle_key_event w now (KeyCode.Char 's') =
      (if w then
        ⟨({ app with message := "Progress saved at " ++ now }).mode_controls (KeyCode.Char 's'),
          Except.ok (), [questionsToJson app.questions]⟩
      else
        ⟨app, Except.error "save_json failed: Failed to write JSON to file.", []⟩) := by
  unfold App.handle_key_event
  rw [common_controls_s]
  cases w
  · rw [save_false]
    rfl
  · rw [save_true]
    rfl

theorem mode_controls_q (app : App) : app.mode_controls (KeyCode.Char 'q') = app :=
  mode_controls_cold_char app 'q' (by decide) (by decide) (by decide)

theorem mode_controls_s (app : App) : app.mode_controls (KeyCode.Char 's') = app :=
  mode_controls_cold_char app 's' (by decide) (by decide) (by decide)

theorem classify_key_length (app : App) (b : Bool) :
    (app.classify_key b).questions.length = app.questions.length := by
  rw [classify_key_questions]
  exact List.length_set ..

theorem answer_key_length (app : App) (c : Char) :
    (app.answer_key c).questions.length = app.questions.length := by
  cases h : get_answer_from_alphanum_option c.toString (currentQ app) with
  | none => rw [answer_key_of_none h]
  | some a =>
    rw [answer_key_of_some h]
    exact List.length_set ..

theorem mode_not_classify (m : Mode) (h : ¬ m = Mode.Classify) : m = Mode.Answer := by
  cases m
  · exact absurd rfl h
  · rfl

theorem shortcut_ne {c : Char} (h : shortcutChar c) :
    c ≠ 'q' ∧ c ≠ 's' ∧ c ≠ 't' ∧ c ≠ 'f' := by
  rcases h with h | h | h | h | h | h <;> subst h <;> exact ⟨by decide, by decide, by decide, by decide⟩

/-- The mode-specific block either leaves the state alone, classifies the
current question, or answers it — never both, since the mode is fixed. -/
theorem mode_controls_cases (app : App) (code : KeyCode) :
    app.mode_controls code = app ∨
    (∃ b, app.mode = Mode.Classify ∧ app.mode_controls code = app.classify_key b) ∨
    (∃ c, app.mode = Mode.Answer ∧ shortcutChar c ∧
      app.mode_controls code = app.answer_key c) := by
  cases code with
  | Left => exact Or.inl (mode_controls_left app)
  | Right => exact Or.inl (mode_controls_right app)
  | Other => exact Or.inl (mode_controls_other app)
  | Char c =>
    by_cases hm : app.mode = Mode.Classify
    · by_cases ht : c = 't'
      · subst ht
        exact Or.inr (Or.inl ⟨true, hm, mode_controls_t app hm⟩)
      · by_cases hf : c = 'f'
        · subst hf
          exact Or.inr (Or.inl ⟨false, hm, mode_controls_f app hm⟩)
        · exact Or.inl (mode_controls_classify_digit app c hm ht hf)
    · have hm2 := mode_not_classify _ hm
      by_cases hd : shortcutChar c
      · exact Or.inr (Or.inr ⟨c, hm2, hd, mode_controls_digit app c hm2 hd⟩)
      · exact Or.inl (mode_controls_answer_nondigit app c hm2 hd)

theorem mode_controls_index (app : App) (code : KeyCode) :
    (app.mode_controls code).question_index = app.question_index := by
  rcases mode_controls_cases app code with h | ⟨b, _, h⟩ | ⟨c, _, _, h⟩ <;> rw [h]
  · exact classify_key_index app b
  · exact answer_key_index app c

theorem mode_controls_length (app : App) (code : KeyCode) :
    (app.mode_controls code).questions.length = app.questions.length := by
  rcases mode_controls_cases app code with h | ⟨b, _, h⟩ | ⟨c, _, _, h⟩ <;> rw [h]
  · exact classify_key_length app b
  · exact answer_key_length app c

theorem mode_controls_num_ge (app : App) (code : KeyCode) :
    app.num_answered ≤ (app.mode_controls code).num_answered := by
  rcases mode_controls_cases app code with h | ⟨b, _, h⟩ | ⟨c, _, _, h⟩ <;> rw [h]
  · exact classify_key_num_ge app b
  · exact answer_key_num_ge app c

/-- One key event either leaves the question vector alone, overwrites the
current question's classification, or overwrites its answer with a text
drawn from its own options. -/
theorem hke_questions_cases (app : App) (w : Bool) (now : String) (code : KeyCode) :
    (app.handle_key_event w now code).app.questions = app.questions ∨
    (∃ b, (app.handle_key_event w now code).app.questions =
        app.questions.set app.question_index
          ({ currentQ app with is_higher_order := some b })) ∨
    (∃ a, a ∈ (currentQ app).options ∧
      (app.handle_key_event w now code).app.questions =
        app.questions.set app.question_index
          ({ currentQ app with human_answer := some a })) := by
  cases code with
  | Left => rw [handle_key_event_left]; exact Or.inl rfl
  | Right => rw [handle_key_event_right]; exact Or.inl rfl
  | Other => rw [handle_key_event_other]; exact Or.inl rfl
  | Char c =>
    by_cases hq : c = 'q'
    · subst hq
      rw [handle_key_event_q]
      cases w
      · exact Or.inl rfl
      · rw [if_pos rfl, mode_controls_q]
        exact Or.inl rfl
    · by_cases hs : c = 's'
      · subst hs
        rw [handle_key_event_s]
        cases w
        · exact Or.inl rfl
        · rw [if_pos rfl, mode_controls_s]
          exact Or.inl rfl
      · rw [handle_key_event_plain_char app w now c hq hs]
        rcases mode_controls_cases app (KeyCode.Char c) with h | ⟨b, _, h⟩ | ⟨d, _, _, h⟩
        · rw [h]
          exact Or.inl rfl
        · rw [h, classify_key_questions]
          exact Or.inr (Or.inl ⟨b, rfl⟩)
        · cases hga : get_answer_from_alphanum_option d.toString (currentQ app) with
          | none =>
            rw [h, answer_key_of_none hga]
            exact Or.inl rfl
          | some a =>
            rw [h, answer_key_of_some hga]
            exact Or.inr (Or.inr ⟨a, get_answer_mem hga, rfl⟩)

theorem hke_num_ge (app : App) (w : Bool) (now : String) (code : KeyCode) :
    app.num_answered ≤ (app.handle_key_event w now code).app.num_answered := by
  cases code with
  | Left =>
    rw [handle_key_event_left]
    exact Nat.le_refl _
  | Right =>
    rw [handle_key_event_right]
    exact Nat.le_refl _
  | Other => rw [handle_key_event_other]
  | Char c =>
    by_cases hq : c = 'q'
    · subst hq
      rw [handle_key_event_q]
      cases w
      · exact Nat.le_refl _
      · rw [if_pos rfl, mode_controls_q]
    · by_cases hs : c = 's'
      · subst hs
        rw [handle_key_event_s]
        cases w
        · exact Nat.le_refl _
        · rw [if_pos rfl, mode_controls_s]
      · rw [handle_key_event_plain_char app w now c hq hs]
        exact mode_controls_num_ge app (KeyCode.Char c)

/-! ### Round-trip lemmas for the persistence layer -/

theorem strListOfJson_map (xs : List String) :
    strListOfJson (xs.map Json.str) = some xs := by
  induction xs with
  | nil => rfl
  | cons x xs ih => simp [strListOfJson, Json.asStr, ih]

theorem fromJson_toJson (q : Question) : Question.fromJson q.toJson = some q := by
  obtain ⟨qq, opts, ans, iho, ha⟩ := q
  cases iho <;> cases ha <;>
    simp [Question.toJson, Question.fromJson, lookupField, Json.asStr, Json.asStrList,
      optBoolOfField, optStrOfField, strListOfJson_map]

theorem questionListFromJson_map (qs : Questions) :
    questionListFromJson (qs.map Question.toJson) = some qs := by
  induction qs with
  | nil => rfl
  | cons q qs ih => simp [questionListFromJson, fromJson_toJson, ih]

/-! ### Concrete fixtures used by the witness theorems -/

/-- A question with no annotations yet. -/
def wQ1 : Question := ⟨"q one", ["optA", "optB"], "optA", none, none⟩

/-- A question already annotated in both senses. -/
def wQ2 : Question := ⟨"q two", ["optC"], "optC", some true, some "optC"⟩

/-- A two-question Answer-mode session at index 0 (one prior answer). -/
def wApp : App := ⟨[wQ1, wQ2], 0, Mode.Answer, "", false, 1⟩

/-- The same question set in Classify mode. -/
def wAppC : App := ⟨[wQ1, wQ2], 0, Mode.Classify, "", false, 1⟩

/-! ### The claims -/

/-- **C3.** For every question-set length `n ≥ 1` and every `currentIndex`
in `[0, n)`: `Previous` (the Left key) at index 0 yields `n - 1` and
otherwise `currentIndex - 1`; `Next` (the Right key) at the last index
yields 0 and otherwise `currentIndex + 1` — wraparound in both directions,
never failing. -/
theorem nav_wraparound (app : App) (w : Bool) (now : String)
    (h : app.question_index < app.questions.length) :
    ((app.handle_key_event w now KeyCode.Left).app.question_index =
        if app.question_index = 0 then app.questions.length - 1
        else app.question_index - 1) ∧
    ((app.handle_key_event w now KeyCode.Right).app.question_index =
        if app.question_index = app.questions.length - 1 then 0
        else app.question_index + 1) ∧
    (app.handle_key_event w now KeyCode.Left).res = Except.ok () ∧
    (app.handle_key_event w now KeyCode.Right).res = Except.ok () := by
  rw [handle_key_event_left, handle_key_event_right]
  refine ⟨?_, ?_, rfl, rfl⟩
  · show app.decrement_index.question_index = _
    unfold App.decrement_index
    cases hi : app.question_index with
    | zero => simp
    | succ n => simp
  · show app.increment_index.question_index = _
    unfold App.increment_index
    have hlen : 0 < app.questions.length := Nat.lt_of_le_of_lt (Nat.zero_le _) h
    by_cases he : app.question_index = app.questions.length - 1
    · rw [if_pos he, he]
      show (app.questions.length - 1 + 1) % app.questions.length = 0
      rw [Nat.sub_add_cancel hlen, Nat.mod_self]
    · rw [if_neg he]
      show (app.question_index + 1) % app.questions.length = app.question_index + 1
      exact Nat.mod_eq_of_lt (by omega)

/-- Witness for `nav_wraparound` at a concrete two-question session. -/
theorem nav_wraparound_witness :
    (wApp.handle_key_event true "t" KeyCode.Left).app.question_index = 1 ∧
    (wApp.handle_key_event true "t" KeyCode.Right).app.question_index = 1 := by
  have h := nav_wraparound wApp true "t" (by decide)
  exact ⟨by rw [h.1]; rfl, by rw [h.2.1]; rfl⟩

/-- **C5.** The Quit command always attempts a save of the full serialized
question set (there is no quit-without-saving path); when the write
succeeds the set is durably written, and when it fails the error is
surfaced as an explicit `Err` outcome — yet in both cases the exit flag is
already set, so the session transitions to its terminated state. -/
theorem quit_saves_and_terminates (app : App) (now : String) :
    ((app.handle_key_event true now (KeyCode.Char 'q')).app = { app with exit := true } ∧
     (app.handle_key_event true now (KeyCode.Char 'q')).written =
        [questionsToJson app.questions] ∧
     (app.handle_key_event true now (KeyCode.Char 'q')).res = Except.ok ()) ∧
    ((app.handle_key_event false now (KeyCode.Char 'q')).app = { app with exit := true } ∧
     (app.handle_key_event false now (KeyCode.Char 'q')).res =
        Except.error "save_json failed: Failed to write JSON to file." ∧
     (app.handle_key_event false now (KeyCode.Char 'q')).written = []) := by
  rw [handle_key_event_q, handle_key_event_q]
  rw [if_pos rfl, if_neg (by simp)]
  rw [mode_controls_q]
  exact ⟨⟨rfl, rfl, rfl⟩, rfl, rfl, rfl⟩

/-- **C9.** The Save command on a successful write sets the transient
message to a confirmation string embedding the save's timestamp; on a
failed write it propagates the error and leaves the whole state — the
message included — exactly as it was. -/
theorem save_message_behavior (app : App) (now : String) :
    ((app.handle_key_event true now (KeyCode.Char 's')).app =
        { app with message := "Progress saved at " ++ now } ∧
     (app.handle_key_event true now (KeyCode.Char 's')).res = Except.ok ()) ∧
    ((app.handle_key_event false now (KeyCode.Char 's')).app = app ∧
     (app.handle_key_event false now (KeyCode.Char 's')).res =
        Except.error "save_json failed: Failed to write JSON to file.") := by
  rw [handle_key_event_s, handle_key_event_s]
  rw [if_pos rfl, if_neg (by simp)]
  rw [mode_controls_s]
  exact ⟨⟨rfl, rfl⟩, rfl, rfl⟩

/-- **C6.** Serializing a question set with the save operation and
deserializing the produced document yields the original set, field for
field; an optional field is absent after the round trip exactly when it was
absent before (`None` maps to the distinguishable `null` marker, which maps
back to `None`). -/
theorem save_load_roundtrip (qs : Questions) :
    save_json true qs = Except.ok (questionsToJson qs) ∧
    questionsFromJson (questionsToJson qs) = some qs := by
  refine ⟨rfl, ?_⟩
  unfold questionsToJson questionsFromJson
  exact questionListFromJson_map qs

theorem currentQ_classify_key (app : App) (b : Bool)
    (h : app.question_index < app.questions.length) :
    currentQ (app.classify_key b) = { currentQ app with is_higher_order := some b } := by
  unfold currentQ
  rw [classify_key_questions, classify_key_index]
  exact getD_set_self _ _ _ _ h

theorem currentQ_answer_key_of_some {app : App} {c : Char} {a : String}
    (hga : get_answer_from_alphanum_option c.toString (currentQ app) = some a)
    (h : app.question_index < app.questions.length) :
    currentQ (app.answer_key c) = { currentQ app with human_answer := some a } := by
  unfold currentQ
  rw [answer_key_of_some hga]
  exact getD_set_self _ _ _ _ h

/-- **C1.** An annotation command applied to the current question —
`ClassifyTrue`/`ClassifyFalse` in Classify mode, or a `SelectOption` whose
shortcut resolves in Answer mode — increments `annotatedCount` by exactly
one when the mode-relevant field was absent, and leaves it unchanged when
the field was already present; in both cases the field afterwards holds the
commanded value (the old value is overwritten). -/
theorem classify_select_counts_once (app : App) (w : Bool) (now : String)
    (hidx : app.question_index < app.questions.length) :
    (app.mode = Mode.Classify →
      (((app.handle_key_event w now (KeyCode.Char 't')).app.num_answered =
          if (currentQ app).is_higher_order = none then app.num_answered + 1
          else app.num_answered) ∧
        (currentQ (app.handle_key_event w now (KeyCode.Char 't')).app).is_higher_order =
          some true) ∧
      (((app.handle_key_event w now (KeyCode.Char 'f')).app.num_answered =
          if (currentQ app).is_higher_order = none then app.num_answered + 1
          else app.num_answered) ∧
        (currentQ (app.handle_key_event w now (KeyCode.Char 'f')).app).is_higher_order =
          some false)) ∧
    (∀ c a, app.mode = Mode.Answer → shortcutChar c →
      get_answer_from_alphanum_option c.toString (currentQ app) = some a →
      ((app.handle_key_event w now (KeyCode.Char c)).app.num_answered =
          if (currentQ app).human_answer = none then app.num_answered + 1
          else app.num_answered) ∧
      (currentQ (app.handle_key_event w now (KeyCode.Char c)).app).human_answer = some a) := by
  constructor
  · intro hm
    constructor
    · rw [handle_key_event_plain_char app w now 't' (by decide) (by decide)]
      show ((app.mode_controls (KeyCode.Char 't')).num_answered = _) ∧ _
      rw [mode_controls_t app hm]
      exact ⟨classify_key_num app true, by rw [currentQ_classify_key app true hidx]⟩
    · rw [handle_key_event_plain_char app w now 'f' (by decide) (by decide)]
      show ((app.mode_controls (KeyCode.Char 'f')).num_answered = _) ∧ _
      rw [mode_controls_f app hm]
      exact ⟨classify_key_num app false, by rw [currentQ_classify_key app false hidx]⟩
  · intro c a hm hd hga
    obtain ⟨hcq, hcs, _, _⟩ := shortcut_ne hd
    rw [handle_key_event_plain_char app w now c hcq hcs]
    show ((app.mode_controls (KeyCode.Char c)).num_answered = _) ∧ _
    rw [mode_controls_digit app c hm hd]
    refine ⟨?_, by rw [currentQ_answer_key_of_some hga hidx]⟩
    rw [answer_key_of_some hga]

/-- Witness for `classify_select_counts_once`: classifying a fresh question
increments the count from 1 to 2 and stores the value; selecting option 2 on
a fresh question does the same for `human_answer`. -/
theorem classify_select_counts_once_witness :
    ((wAppC.handle_key_event true "t" (KeyCode.Char 't')).app.num_answered = 2 ∧
     (currentQ (wAppC.handle_key_event true "t" (KeyCode.Char 't')).app).is_higher_order =
        some true) ∧
    ((wApp.handle_key_event true "t" (KeyCode.Char '2')).app.num_answered = 2 ∧
     (currentQ (wApp.handle_key_event true "t" (KeyCode.Char '2')).app).human_answer =
        some "optB") := by
  constructor
  · have h := ((classify_select_counts_once wAppC true "t" (by decide)).1 rfl).1
    exact ⟨by rw [h.1]; rfl, h.2⟩
  · have h := (classify_select_counts_once wApp true "t" (by decide)).2 '2' "optB" rfl
      (Or.inr (Or.inl rfl)) (by decide)
    exact ⟨by rw [h.1]; rfl, h.2⟩

/-- **C2.** For every session state with a non-empty question set and an
in-range `currentIndex`, and for every input key, the transition yields a
state whose index is still within `[0, len(questions))`. -/
theorem index_stays_in_bounds (app : App) (w : Bool) (now : String) (code : KeyCode)
    (hne : app.questions ≠ []) (h : app.question_index < app.questions.length) :
    (app.handle_key_event w now code).app.question_index <
      (app.handle_key_event w now code).app.questions.length := by
  have hlen : 0 < app.questions.length := Nat.lt_of_le_of_lt (Nat.zero_le _) h
  cases code with
  | Left =>
    rw [handle_key_event_left]
    show app.decrement_index.question_index < app.decrement_index.questions.length
    unfold App.decrement_index
    cases hi : app.question_index with
    | zero => exact Nat.sub_lt hlen Nat.one_pos
    | succ n =>
      show n < app.questions.length
      omega
  | Right =>
    rw [handle_key_event_right]
    show (app.question_index + 1) % app.questions.length < app.questions.length
    exact Nat.mod_lt _ hlen
  | Other =>
    rw [handle_key_event_other]
    exact h
  | Char c =>
    by_cases hq : c = 'q'
    · subst hq
      rw [handle_key_event_q]
      cases w
      · rw [if_neg (by simp)]
        exact h
      · rw [if_pos rfl, mode_controls_q]
        exact h
    · by_cases hs : c = 's'
      · subst hs
        rw [handle_key_event_s]
        cases w
        · rw [if_neg (by simp)]
          exact h
        · rw [if_pos rfl, mode_controls_s]
          exact h
      · rw [handle_key_event_plain_char app w now c hq hs]
        show (app.mode_controls (KeyCode.Char c)).question_index <
          (app.mode_controls (KeyCode.Char c)).questions.length
        rw [mode_controls_index, mode_controls_length]
        exact h

/-- Witness for `index_stays_in_bounds` at a concrete state and key. -/
theorem index_stays_in_bounds_witness :
    (wApp.handle_key_event true "t" KeyCode.Right).app.question_index <
      (wApp.handle_key_event true "t" KeyCode.Right).app.questions.length :=
  index_stays_in_bounds wApp true "t" KeyCode.Right (by decide) (by decide)

/-- The inputs the transition function recognizes as commands, relative to
the active mode: `q`, `s`, Left, Right always; `t`/`f` only in Classify
mode; the shortcut digits only in Answer mode. -/
@[reducible] def recognized (m : Mode) (code : KeyCode) : Prop :=
  match code with
  | KeyCode.Char c =>
    c = 'q' ∨ c = 's' ∨ (m = Mode.Classify ∧ (c = 't' ∨ c = 'f')) ∨
      (m = Mode.Answer ∧ shortcutChar c)
  | KeyCode.Left => True
  | KeyCode.Right => True
  | KeyCode.Other => False

/-- **C7.** A `SelectOption` whose shortcut resolves beyond the current
question's option count, and any input that is not a recognized command for
the active mode, leave the session state byte-for-byte unchanged: no field
is mutated, the outcome is `Ok`, and nothing is written. -/
theorem unrecognized_input_is_noop (app : App) (w : Bool) (now : String) (code : KeyCode)
    (h : (app.mode = Mode.Answer ∧ ∃ c, code = KeyCode.Char c ∧ shortcutChar c ∧
            get_answer_from_alphanum_option c.toString (currentQ app) = none) ∨
         ¬ recognized app.mode code) :
    app.handle_key_event w now code = ⟨app, Except.ok (), []⟩ := by
  rcases h with ⟨hm, c, rfl, hd, hga⟩ | hnr
  · obtain ⟨hcq, hcs, _, _⟩ := shortcut_ne hd
    rw [handle_key_event_plain_char app w now c hcq hcs, mode_controls_digit app c hm hd,
      answer_key_of_none hga]
  · cases code with
    | Left => exact absurd trivial hnr
    | Right => exact absurd trivial hnr
    | Other => exact handle_key_event_other app w now
    | Char c =>
      have hrec : ¬(c = 'q' ∨ c = 's' ∨ (app.mode = Mode.Classify ∧ (c = 't' ∨ c = 'f')) ∨
          (app.mode = Mode.Answer ∧ shortcutChar c)) := hnr
      push_neg at hrec
      obtain ⟨hcq, hcs, h3, h4⟩ := hrec
      rw [handle_key_event_plain_char app w now c hcq hcs]
      cases hm : app.mode with
      | Classify =>
        have htf := h3 hm
        push_neg at htf
        rw [mode_controls_classify_digit app c hm htf.1 htf.2]
      | Answer =>
        rw [mode_controls_answer_nondigit app c hm (h4 hm)]

/-- Witness for `unrecognized_input_is_noop`: shortcut `6` does not resolve
on a two-option question, and the state is returned untouched. -/
theorem unrecognized_input_is_noop_witness :
    wApp.handle_key_event true "t" (KeyCode.Char '6') = ⟨wApp, Except.ok (), []⟩ :=
  unrecognized_input_is_noop wApp true "t" (KeyCode.Char '6')
    (Or.inl ⟨rfl, '6', rfl, by decide, by decide⟩)

/-- The data-model invariant of §3: a present `human_answer` is verbatim one
of that question's `options`. -/
def answer_in_options (qs : Questions) : Prop :=
  ∀ q ∈ qs, ∀ a, q.human_answer = some a → a ∈ q.options

theorem getD_of_len_le {α : Type _} (l : List α) (i : Nat) (d : α) (h : l.length ≤ i) :
    l.getD i d = d := by
  induction l generalizing i with
  | nil => cases i <;> rfl
  | cons a l ih =>
    cases i with
    | zero => simp at h
    | succ n => exact ih n (by simpa using h)

/-- **C8.** Every command preserves the invariant that each present
`humanAnswer` equals one of its question's options verbatim: the transition
only ever assigns `human_answer` by resolving a position into the current
question's own options. -/
theorem human_answer_in_options_invariant (app : App) (w : Bool) (now : String) (code : KeyCode)
    (hinv : answer_in_options app.questions) :
    answer_in_options (app.handle_key_event w now code).app.questions := by
  rcases hke_questions_cases app w now code with hq | ⟨b, hq⟩ | ⟨a, ha, hq⟩ <;> rw [hq]
  · exact hinv
  · intro q hqmem a' hqa
    rcases mem_of_mem_set hqmem with hmem | rfl
    · exact hinv q hmem a' hqa
    · by_cases hlt : app.question_index < app.questions.length
      · exact hinv (currentQ app) (getD_mem _ _ _ hlt) a' hqa
      · have hdq : currentQ app = defaultQuestion :=
          getD_of_len_le _ _ _ (Nat.le_of_not_lt hlt)
        have : ({ currentQ app with is_higher_order := some b }).human_answer = some a' := hqa
        rw [hdq] at this
        cases this
  · intro q hqmem a' hqa
    rcases mem_of_mem_set hqmem with hmem | rfl
    · exact hinv q hmem a' hqa
    · have : some a = some a' := hqa
      injection this with h2
      exact h2 ▸ ha

/-- Witness for `human_answer_in_options_invariant` at a concrete state whose
invariant holds, stepped by a resolving `SelectOption`. -/
theorem human_answer_in_options_invariant_witness :
    answer_in_options (wApp.handle_key_event true "t" (KeyCode.Char '1')).app.questions := by
  apply human_answer_in_options_invariant
  intro q hq a ha
  have hq' : q = wQ1 ∨ q = wQ2 := by simpa [wApp] using hq
  rcases hq' with rfl | rfl
  · exact absurd ha (by simp [wQ1])
  · have : some "optC" = some a := ha
    injection this with h2
    rw [← h2]
    decide

/-- **C10.** No command ever clears an annotation: a question whose
`classification` or `humanAnswer` is present keeps that field present
through every transition, and the annotated count never decreases. -/
theorem annotations_never_cleared (app : App) (w : Bool) (now : String) (code : KeyCode)
    (i : Nat) :
    ((app.questions.getD i defaultQuestion).is_higher_order.isSome = true →
      ((app.handle_key_event w now code).app.questions.getD i
          defaultQuestion).is_higher_order.isSome = true) ∧
    ((app.questions.getD i defaultQuestion).human_answer.isSome = true →
      ((app.handle_key_event w now code).app.questions.getD i
          defaultQuestion).human_answer.isSome = true) ∧
    app.num_answered ≤ (app.handle_key_event w now code).app.num_answered := by
  refine ⟨?_, ?_, hke_num_ge app w now code⟩
  · intro hpre
    rcases hke_questions_cases app w now code with hq | ⟨b, hq⟩ | ⟨a, _, hq⟩ <;> rw [hq]
    · exact hpre
    · by_cases hij : i = app.question_index
      · subst hij
        by_cases hlt : app.question_index < app.questions.length
        · rw [getD_set_self _ _ _ _ hlt]
          rfl
        · rw [List.set_eq_of_length_le (Nat.le_of_not_lt hlt)]
          exact hpre
      · rw [getD_set_ne _ _ _ _ _ hij]
        exact hpre
    · by_cases hij : i = app.question_index
      · subst hij
        by_cases hlt : app.question_index < app.questions.length
        · rw [getD_set_self _ _ _ _ hlt]
          exact hpre
        · rw [List.set_eq_of_length_le (Nat.le_of_not_lt hlt)]
          exact hpre
      · rw [getD_set_ne _ _ _ _ _ hij]
        exact hpre
  · intro hpre
    rcases hke_questions_cases app w now code with hq | ⟨b, hq⟩ | ⟨a, _, hq⟩ <;> rw [hq]
    · exact hpre
    · by_cases hij : i = app.question_index
      · subst hij
        by_cases hlt : app.question_index < app.questions.length
        · rw [getD_set_self _ _ _ _ hlt]
          exact hpre
        · rw [List.set_eq_of_length_le (Nat.le_of_not_lt hlt)]
          exact hpre
      · rw [getD_set_ne _ _ _ _ _ hij]
        exact hpre
    · by_cases hij : i = app.question_index
      · subst hij
        by_cases hlt : app.question_index < app.questions.length
        · rw [getD_set_self _ _ _ _ hlt]
          rfl
        · rw [List.set_eq_of_length_le (Nat.le_of_not_lt hlt)]
          exact hpre
      · rw [getD_set_ne _ _ _ _ _ hij]
        exact hpre

/-- Witness for `annotations_never_cleared`: the pre-annotated question 1
keeps both fields present across a `SelectOption` on question 0, and the
count does not decrease. -/
theorem annotations_never_cleared_witness :
    ((wApp.handle_key_event true "t" (KeyCode.Char '1')).app.questions.getD 1
        defaultQuestion).human_answer.isSome = true ∧
    ((wApp.handle_key_event true "t" (KeyCode.Char '1')).app.questions.getD 1
        defaultQuestion).is_higher_order.isSome = true ∧
    wApp.num_answered ≤ (wApp.handle_key_event true "t" (KeyCode.Char '1')).app.num_answered := by
  have h := annotations_never_cleared wApp true "t" (KeyCode.Char '1') 1
  exact ⟨h.2.1 (by decide), h.1 (by decide), h.2.2⟩

/-- A fresh two-question Answer-mode session for exercising the loop. -/
def app0 : App := ⟨[wQ1, wQ1], 0, Mode.Answer, "", false, 0⟩

/-- A pending Save whose write fails, followed by a Next command. -/
def inputs0 : List (Event × Bool × String) :=
  [(Event.KeyPress (KeyCode.Char 's'), false, "2024-01-01 00:00:00 UTC"),
   (Event.KeyPress KeyCode.Right, true, "2024-01-01 00:00:01 UTC")]

/-- **C4, counterexample.** A failed Save is *not* reported through the
transient message channel, and the read-evaluate loop *does* terminate: on
`app0` with a failing write followed by a Next command, the loop result is
the propagated error, `message` is still empty, and the trailing Next was
never processed (the whole state is untouched, index included, though the
Next would have moved it to 1). -/
theorem save_failure_stops_loop_cex :
    ¬ ((app0.run inputs0).res = Except.ok () ∧ (app0.run inputs0).app.message ≠ "") ∧
    (app0.run inputs0).res =
      Except.error "save_json failed: Failed to write JSON to file." ∧
    (app0.run inputs0).app = app0 := by
  refine ⟨?_, rfl, rfl⟩
  intro hc
  have h2 : (app0.run inputs0).res =
      Except.error "save_json failed: Failed to write JSON to file." := rfl
  rw [hc.1] at h2
  cases h2

/-- **C4, amended.** When a Save command's underlying write fails, the error
is propagated out of the read-evaluate loop through `?`: the loop terminates
with that error as its result, the remaining inputs are never consumed, and
the state — the transient message included — is exactly as it was before the
command.  (The failure is surfaced to the process, not through `lastMessage`,
and the in-memory session ends rather than continuing.) -/
theorem save_failure_propagates_and_stops_loop (app : App) (now : String)
    (rest : List (Event × Bool × String)) (h : app.exit = false) :
    app.run ((Event.KeyPress (KeyCode.Char 's'), false, now) :: rest) =
      ⟨app, Except.error "save_json failed: Failed to write JSON to file.", []⟩ := by
  have hh : app.handle_events false now (Event.KeyPress (KeyCode.Char 's')) =
      ⟨app, Except.error "save_json failed: Failed to write JSON to file.", []⟩ := by
    show app.handle_key_event false now (KeyCode.Char 's') = _
    rw [handle_key_event_s, if_neg (by simp)]
  unfold App.run
  rw [h, if_neg (by simp), hh]

/-- Witness for `save_failure_propagates_and_stops_loop` at a concrete
session. -/
theorem save_failure_propagates_and_stops_loop_witness :
    app0.run inputs0 =
      ⟨app0, Except.error "save_json failed: Failed to write JSON to file.", []⟩ :=
  save_failure_propagates_and_stops_loop app0 "2024-01-01 00:00:00 UTC"
    [(Event.KeyPress KeyCode.Right, true, "2024-01-01 00:00:01 UTC")] rfl

end QuestionCli
